import Mathlib

/-!
Verification development for the MCP bridge module
(`operations_dashboard/mcp_bridge.py`): configuration parsing, bridge
signatures, result normalization, the background worker loop, and the
process-wide bridge accessor, shallowly embedded in Lean.
-/

namespace MCPBridge

/-- JSON values as produced by a successful call to the Python function
`json.loads`.  Numeric precision is irrelevant to the bridge, so numbers are
carried as integers. -/
inductive JValue where
  | null
  | bool (b : Bool)
  | num (n : Int)
  | str (s : String)
  | arr (xs : List JValue)
  | obj (fields : List (String × JValue))

/-- Tests whether a JSON value is a string, mirroring `isinstance(item, str)`. -/
def isStrVal : JValue → Bool
  | .str _ => true
  | _ => false

/-- Extracts the string payload of a JSON string value; only used under an
`isStrVal` guard, so the default branch is dead. -/
def strVal : JValue → String
  | .str s => s
  | _ => ""

/-- Splits a character list at every occurrence of the separator character,
keeping empty pieces, exactly as the Python call `raw.split(" ")` does for a
single-character separator. -/
def splitChar (sep : Char) : List Char → List (List Char)
  | [] => [[]]
  | c :: cs =>
      let r := splitChar sep cs
      if c = sep then [] :: r
      else
        match r with
        | [] => [[c]]
        | p :: ps => (c :: p) :: ps

/-- Fallback of `_parse_args`: `raw.split(" ")` in Python splits at every single
space character, and the comprehension drops the empty pieces. -/
def splitFallback (raw : String) : List String :=
  ((splitChar ' ' raw.data).map (fun cs => String.mk cs)).filter (fun p => p ≠ "")

/-- Shallow embedding of `_parse_args`.  The `loads` argument is the outcome of
`json.loads raw` performed by the external json library: `none` when decoding
raises `JSONDecodeError`, otherwise the decoded value. -/
def parse_args (raw : String) (loads : Option JValue) : List String :=
  match loads with
  | some (.arr xs) =>
      if xs.all isStrVal then xs.map strVal else splitFallback raw
  | _ => splitFallback raw

/-- Shallow embedding of `_parse_env`.  A missing or empty raw string is falsy
in Python, so it returns no overrides; a decoded JSON object is accepted only
when every value is a string (JSON object keys are always strings). -/
def parse_env (raw : Option String) (loads : Option JValue) :
    Option (List (String × String)) :=
  match raw with
  | none => none
  | some s =>
      if s = "" then none
      else
        match loads with
        | some (.obj fields) =>
            if fields.all (fun p => isStrVal p.2) then
              some (fields.map (fun p => (p.1, strVal p.2)))
            else none
        | _ => none

theorem all_isStrVal_eq_map (xs : List JValue) (h : xs.all isStrVal = true) :
    xs = (xs.map strVal).map JValue.str := by
  induction xs with
  | nil => rfl
  | cons x xs ih =>
      simp only [List.all_cons, Bool.and_eq_true] at h
      obtain ⟨hx, hxs⟩ := h
      cases x <;> simp [isStrVal] at hx
      simp [strVal, ← ih hxs]

theorem all_strField_eq_map (fs : List (String × JValue))
    (h : fs.all (fun p => isStrVal p.2) = true) :
    fs = (fs.map (fun p => (p.1, strVal p.2))).map
      (fun p => (p.1, JValue.str p.2)) := by
  induction fs with
  | nil => rfl
  | cons f fs ih =>
      simp only [List.all_cons, Bool.and_eq_true] at h
      obtain ⟨hf, hfs⟩ := h
      obtain ⟨k, v⟩ := f
      cases v <;> simp [isStrVal] at hf
      rename_i s
      have h2 := ih hfs
      rw [List.map_map] at h2
      simpa [strVal] using congrArg (List.cons (k, JValue.str s)) h2

theorem map_strVal_map_str (xs : List String) :
    List.map strVal (List.map JValue.str xs) = xs := by
  induction xs with
  | nil => rfl
  | cons x xs ih => simp [strVal, ih]

theorem map_strField_map_str (m : List (String × String)) :
    List.map (fun p => (p.1, strVal p.2))
      (List.map (fun p => (p.1, JValue.str p.2)) m) = m := by
  induction m with
  | nil => rfl
  | cons p m ih =>
      simp only [List.map_cons, ih]
      rfl

theorem all_isStrVal_map_str (xs : List String) :
    (xs.map JValue.str).all isStrVal = true := by
  induction xs with
  | nil => rfl
  | cons x xs ih =>
      simp only [List.map_cons, List.all_cons, ih]
      rfl

theorem all_strField_map_str (m : List (String × String)) :
    ((m.map (fun p => (p.1, JValue.str p.2))).all (fun p => isStrVal p.2)) =
      true := by
  induction m with
  | nil => rfl
  | cons p m ih =>
      simp only [List.map_cons, List.all_cons, ih]
      rfl

/-- C9: parsing the argument-list configuration string returns the decoded
value when it is valid JSON encoding a list of strings and for every other
input falls back to splitting on single spaces and dropping empty pieces;
parsing the environment-override configuration string returns the decoded map
only when it is valid JSON encoding a string-to-string map and returns no
overrides for every other non-empty input, so malformed override values are
silently ignored. -/
theorem c9_config_parsing :
    (∀ (raw : String) (xs : List String),
        parse_args raw (some (.arr (xs.map JValue.str))) = xs) ∧
    (∀ (raw : String) (loads : Option JValue),
        (∀ xs : List String, loads ≠ some (.arr (xs.map JValue.str))) →
        parse_args raw loads = splitFallback raw) ∧
    (∀ (s : String) (m : List (String × String)), s ≠ "" →
        parse_env (some s)
          (some (.obj (m.map (fun p => (p.1, JValue.str p.2))))) = some m) ∧
    (∀ (s : String) (loads : Option JValue), s ≠ "" →
        (∀ m : List (String × String),
            loads ≠ some (.obj (m.map (fun p => (p.1, JValue.str p.2))))) →
        parse_env (some s) loads = none) := by
  refine ⟨?_, ?_, ?_, ?_⟩
  · intro raw xs
    simp only [parse_args, all_isStrVal_map_str, if_true]
    exact map_strVal_map_str xs
  · intro raw loads h
    match loads with
    | none => rfl
    | some (.null) => rfl
    | some (.bool b) => rfl
    | some (.num n) => rfl
    | some (.str s) => rfl
    | some (.obj fs) => rfl
    | some (.arr xs) =>
        by_cases hall : xs.all isStrVal = true
        · exact absurd
            (congrArg (fun l => some (JValue.arr l))
              (all_isStrVal_eq_map xs hall))
            (h (xs.map strVal))
        · simp [parse_args, hall]
  · intro s m hs
    simp only [parse_env, if_neg hs, all_strField_map_str, if_true]
    exact congrArg some (map_strField_map_str m)
  · intro s loads hs h
    match loads with
    | none => simp [parse_env, hs]
    | some (.null) => simp [parse_env, hs]
    | some (.bool b) => simp [parse_env, hs]
    | some (.num n) => simp [parse_env, hs]
    | some (.str t) => simp [parse_env, hs]
    | some (.arr xs) => simp [parse_env, hs]
    | some (.obj fs) =>
        by_cases hall : fs.all (fun p => isStrVal p.2) = true
        · exact absurd
            (congrArg (fun l => some (JValue.obj l))
              (all_strField_eq_map fs hall))
            (h (fs.map (fun p => (p.1, strVal p.2))))
        · simp [parse_env, hs, hall]

theorem c9_config_parsing_witness :
    parse_args "a  b" (some (.arr [JValue.str "x"])) = ["x"] ∧
    parse_args "a  b" none = ["a", "b"] ∧
    parse_env (some "bad") (some (.obj [("K", JValue.str "V")])) =
      some [("K", "V")] ∧
    parse_env (some "bad") (some (JValue.num 3)) = none := by
  refine ⟨?_, ?_, ?_, ?_⟩
  · exact c9_config_parsing.1 "a  b" ["x"]
  · rw [c9_config_parsing.2.1 "a  b" none (by intro xs hx; cases hx)]
    decide
  · exact c9_config_parsing.2.2.1 "bad" [("K", "V")] (by decide)
  · exact c9_config_parsing.2.2.2 "bad" (some (JValue.num 3)) (by decide)
      (by intro m hm; cases hm)

/-- Lexicographic comparison of environment items, matching the ordering the
Python builtin `sorted` applies to pairs of strings. -/
def itemLE (a b : String × String) : Prop :=
  a.1 < b.1 ∨ (a.1 = b.1 ∧ a.2 ≤ b.2)

instance : DecidableRel itemLE := by
  intro a b
  unfold itemLE
  infer_instance

instance : IsTotal (String × String) itemLE := by
  constructor
  intro a b
  rcases lt_trichotomy a.1 b.1 with h | h | h
  · exact Or.inl (Or.inl h)
  · rcases le_total a.2 b.2 with h2 | h2
    · exact Or.inl (Or.inr ⟨h, h2⟩)
    · exact Or.inr (Or.inr ⟨h.symm, h2⟩)
  · exact Or.inr (Or.inl h)

instance : IsTrans (String × String) itemLE := by
  constructor
  intro a b c hab hbc
  rcases hab with h1 | ⟨e1, l1⟩
  · rcases hbc with h2 | ⟨e2, l2⟩
    · exact Or.inl (h1.trans h2)
    · exact Or.inl (e2 ▸ h1)
  · rcases hbc with h2 | ⟨e2, l2⟩
    · exact Or.inl (e1 ▸ h2)
    · exact Or.inr ⟨e1.trans e2, l1.trans l2⟩

instance : IsAntisymm (String × String) itemLE := by
  constructor
  intro a b hab hba
  rcases hab with h1 | ⟨e1, l1⟩
  · rcases hba with h2 | ⟨e2, l2⟩
    · exact absurd (h1.trans h2) (lt_irrefl _)
    · exact absurd (e2 ▸ h1) (lt_irrefl _)
  · rcases hba with h2 | ⟨e2, l2⟩
    · exact absurd (e1 ▸ h2) (lt_irrefl _)
    · exact Prod.ext e1 (le_antisymm l1 l2)

/-- Embedding of `tuple(sorted(env_patch.items()))` in `_bridge_signature`:
the environment items in ascending lexicographic order. -/
def sortItems (l : List (String × String)) : List (String × String) :=
  List.insertionSort itemLE l

theorem sortItems_perm_eq {m₁ m₂ : List (String × String)} (h : m₁.Perm m₂) :
    sortItems m₁ = sortItems m₂ := by
  unfold sortItems
  exact List.eq_of_perm_of_sorted
    ((List.perm_insertionSort itemLE m₁).trans
      (h.trans (List.perm_insertionSort itemLE m₂).symm))
    (List.sorted_insertionSort itemLE m₁)
    (List.sorted_insertionSort itemLE m₂)

/-- Live configuration read by the bridge module from environment variables,
together with the outcomes of the external `json.loads` calls on the two raw
JSON configuration strings (`none` models a `JSONDecodeError`). -/
structure BridgeConfig where
  transportRaw : Option String
  url : Option String
  command : String
  argsRaw : String
  argsLoads : Option JValue
  envRaw : Option String
  envLoads : Option JValue

/-- Embedding of the Python method call `s.lower()` as a character-wise case
map over the string data (the transport names involved are ASCII). -/
def pyLower (s : String) : String :=
  String.mk (s.data.map Char.toLower)

/-- Shallow embedding of `_bridge_transport`: the configured transport name,
defaulting to stdio, lowercased. -/
def bridge_transport (cfg : BridgeConfig) : String :=
  pyLower (cfg.transportRaw.getD "stdio")

/-- Membership test of `transport in ("streamable-http", "http")`. -/
def isHttpTransport (t : String) : Bool :=
  t = "streamable-http" || t = "http"

/-- Values of the tuple returned by `_bridge_signature`. -/
inductive Sig where
  | streamableHttp (url : Option String)
  | stdio (command : String) (args : List String)
      (envItems : Option (List (String × String)))
deriving DecidableEq, Repr

/-- Shallow embedding of `_bridge_signature`. -/
def bridge_signature (cfg : BridgeConfig) : Sig :=
  if isHttpTransport (bridge_transport cfg) then
    Sig.streamableHttp cfg.url
  else
    Sig.stdio cfg.command (parse_args cfg.argsRaw cfg.argsLoads)
      (match parse_env cfg.envRaw cfg.envLoads with
       | some m => if m.isEmpty then none else some (sortItems m)
       | none => none)

/-- Configuration whose environment-override string is the literal two-byte
JSON text for an empty object, which decodes to the empty map. -/
def envEmptyCfg : BridgeConfig where
  transportRaw := some "stdio"
  url := none
  command := "python"
  argsRaw := "[\"-m\", \"operations_dashboard.mcp_server\"]"
  argsLoads := some (.arr [.str "-m", .str "operations_dashboard.mcp_server"])
  envRaw := some "\x7b\x7d"
  envLoads := some (.obj [])

/-- Relates two optional environment maps that denote the same map: both
absent, or both present and equal up to reordering of their items. -/
def optPerm : Option (List (String × String)) →
    Option (List (String × String)) → Prop
  | some m₁, some m₂ => m₁.Perm m₂
  | none, none => True
  | _, _ => False

/-- C10 counterexample: with the environment-override string decoding to the
empty map, the parsed map is present, yet the signature carries `none` as its
environment component rather than the sorted item sequence of that map. -/
theorem c10_counterexample :
    parse_env envEmptyCfg.envRaw envEmptyCfg.envLoads = some [] ∧
    bridge_signature envEmptyCfg =
      Sig.stdio "python" ["-m", "operations_dashboard.mcp_server"] none ∧
    bridge_signature envEmptyCfg ≠
      Sig.stdio "python" ["-m", "operations_dashboard.mcp_server"]
        (some (sortItems [])) := by
  refine ⟨rfl, rfl, ?_⟩
  intro h
  rw [show bridge_signature envEmptyCfg =
    Sig.stdio "python" ["-m", "operations_dashboard.mcp_server"] none
    from rfl] at h
  simp at h

/-- C10 (amended): when the transport is streamable-http (or http) the
signature depends only on the transport kind and the configured URL; when the
transport is stdio the environment component is the sorted item sequence of
the parsed override map, with `none` when the overrides are absent, malformed,
or parse to the empty map; consequently any two override configuration strings
denoting the same non-ambiguous map yield equal signatures. -/
theorem c10_signature :
    (∀ cfg : BridgeConfig, isHttpTransport (bridge_transport cfg) = true →
        bridge_signature cfg = Sig.streamableHttp cfg.url) ∧
    (∀ cfg : BridgeConfig, isHttpTransport (bridge_transport cfg) = false →
        ∀ m : List (String × String),
          parse_env cfg.envRaw cfg.envLoads = some m → m ≠ [] →
          bridge_signature cfg =
            Sig.stdio cfg.command (parse_args cfg.argsRaw cfg.argsLoads)
              (some (sortItems m))) ∧
    (∀ cfg : BridgeConfig, isHttpTransport (bridge_transport cfg) = false →
        (parse_env cfg.envRaw cfg.envLoads = none ∨
            parse_env cfg.envRaw cfg.envLoads = some []) →
        bridge_signature cfg =
          Sig.stdio cfg.command (parse_args cfg.argsRaw cfg.argsLoads)
            none) ∧
    (∀ cfg₁ cfg₂ : BridgeConfig,
        isHttpTransport (bridge_transport cfg₁) = false →
        isHttpTransport (bridge_transport cfg₂) = false →
        cfg₁.command = cfg₂.command →
        parse_args cfg₁.argsRaw cfg₁.argsLoads =
          parse_args cfg₂.argsRaw cfg₂.argsLoads →
        optPerm (parse_env cfg₁.envRaw cfg₁.envLoads)
          (parse_env cfg₂.envRaw cfg₂.envLoads) →
        bridge_signature cfg₁ = bridge_signature cfg₂) := by
  refine ⟨?_, ?_, ?_, ?_⟩
  · intro cfg h
    simp [bridge_signature, h]
  · intro cfg h m henv hm
    cases m with
    | nil => exact absurd rfl hm
    | cons a t => simp [bridge_signature, h, henv]
  · intro cfg h henv
    rcases henv with henv | henv <;> simp [bridge_signature, h, henv]
  · intro cfg₁ cfg₂ h1 h2 hc ha he
    cases hm1 : parse_env cfg₁.envRaw cfg₁.envLoads with
    | none =>
        cases hm2 : parse_env cfg₂.envRaw cfg₂.envLoads with
        | none => simp [bridge_signature, h1, h2, hc, ha, hm1, hm2]
        | some m₂ =>
            rw [hm1, hm2] at he
            exact absurd he (by simp [optPerm])
    | some m₁ =>
        cases hm2 : parse_env cfg₂.envRaw cfg₂.envLoads with
        | none =>
            rw [hm1, hm2] at he
            exact absurd he (by simp [optPerm])
        | some m₂ =>
            rw [hm1, hm2] at he
            have hp : m₁.Perm m₂ := he
            cases m₁ with
            | nil =>
                have : m₂ = [] := hp.symm.eq_nil
                subst this
                simp [bridge_signature, h1, h2, hc, ha, hm1, hm2]
            | cons a t =>
                cases m₂ with
                | nil => exact absurd hp.eq_nil (by simp)
                | cons b u =>
                    simp [bridge_signature, h1, h2, hc, ha, hm1, hm2,
                      sortItems_perm_eq hp]

theorem c10_signature_witness :
    bridge_signature
      { transportRaw := some "HTTP", url := some "http://localhost:8000",
        command := "python", argsRaw := "x", argsLoads := none,
        envRaw := none, envLoads := none } =
      Sig.streamableHttp (some "http://localhost:8000") ∧
    bridge_signature
      { envEmptyCfg with envRaw := some "\x7ba\x7d",
                         envLoads := some (.obj [("A", .str "1"),
                                                 ("B", .str "2")]) } =
      Sig.stdio "python" ["-m", "operations_dashboard.mcp_server"]
        (some (sortItems [("A", "1"), ("B", "2")])) ∧
    bridge_signature envEmptyCfg =
      Sig.stdio "python" ["-m", "operations_dashboard.mcp_server"] none ∧
    bridge_signature
      { envEmptyCfg with envRaw := some "\x7ba\x7d",
                         envLoads := some (.obj [("A", .str "1"),
                                                 ("B", .str "2")]) } =
      bridge_signature
        { envEmptyCfg with envRaw := some "\x7bb\x7d",
                           envLoads := some (.obj [("B", .str "2"),
                                                   ("A", .str "1")]) } := by
  refine ⟨?_, ?_, ?_, ?_⟩
  · exact c10_signature.1 _ (by decide)
  · exact c10_signature.2.1 _ (by decide) [("A", "1"), ("B", "2")] rfl
      (by decide)
  · exact c10_signature.2.2.1 envEmptyCfg (by decide) (Or.inr rfl)
  · exact c10_signature.2.2.2 _ _ (by decide) (by decide) rfl rfl
      (List.Perm.swap ("B", "2") ("A", "1") [])

/-- Python values crossing the bridge boundary: JSON-serializable payloads and
normalized content. -/
inductive PyVal where
  | none
  | bool (b : Bool)
  | int (n : Int)
  | str (s : String)
  | list (xs : List PyVal)
  | dict (fields : List (String × PyVal))

/-- Attribute values read by getattr on an embedded resource inside
`_normalize_result`: each of uri, text, data is `none` when the resource
object lacks that attribute. -/
structure ResourceAttrs where
  uri : Option String
  text : Option String
  data : Option String

/-- Content blocks of an MCP tool result, following the content-block union of
the external mcp library.  `_normalize_result` tests for `TextContent` and
`EmbeddedResource` via isinstance; every remaining variant reaches the final
branch, which records its class name and repr text. -/
inductive ContentBlock where
  | textContent (text : String)
  | embeddedResource (resource : ResourceAttrs)
  | imageContent (reprStr : String)
  | audioContent (reprStr : String)
  | resourceLink (reprStr : String)

/-- Value of `type(block).__name__` for each content-block class. -/
def blockTypeName : ContentBlock → String
  | .textContent _ => "TextContent"
  | .embeddedResource _ => "EmbeddedResource"
  | .imageContent _ => "ImageContent"
  | .audioContent _ => "AudioContent"
  | .resourceLink _ => "ResourceLink"

/-- Value of `repr(block)` for the blocks reaching the final branch. -/
def blockRepr : ContentBlock → String
  | .imageContent r => r
  | .audioContent r => r
  | .resourceLink r => r
  | _ => ""

/-- Embedding of the per-block normalization loop body of
`_normalize_result`. -/
def normalizeBlock : ContentBlock → PyVal
  | .textContent t => .dict [("type", .str "text"), ("text", .str t)]
  | .embeddedResource r =>
      .dict ([("type", PyVal.str "embedded_resource")]
        ++ (match r.uri with
            | some u => [("uri", PyVal.str u)]
            | none => [])
        ++ (match r.text with
            | some t => [("text", PyVal.str t)]
            | none => [])
        ++ (match r.data with
            | some d => [("data", PyVal.str d)]
            | none => []))
  | b => .dict [("type", .str (blockTypeName b)), ("repr", .str (blockRepr b))]

/-- Lookup of a key in a normalized block dictionary, mirroring Python dict
indexing on the dictionaries the loop builds (they carry no duplicate keys). -/
def dictGet (fields : List (String × PyVal)) (k : String) : Option PyVal :=
  (fields.find? (fun p => p.1 == k)).map (fun p => p.2)

/-- Reads the type entry of a normalized block. -/
def pyValType : PyVal → Option PyVal
  | .dict fs => dictGet fs "type"
  | _ => Option.none

/-- Python exceptions distinguished by the bridge code paths. -/
inductive Exc where
  | runtimeError (msg : String)
  | fileNotFoundError (msg : String)
  | keyError (msg : String)
  | otherError (className : String) (msg : String)

/-- Message text of an exception as rendered by a Python f-string. -/
def excMsg : Exc → String
  | .runtimeError m => m
  | .fileNotFoundError m => m
  | .keyError m => m
  | .otherError _ m => m

/-- Single-quote character as a string, used by bridge error messages. -/
def sq : String := String.mk [Char.ofNat 39]

/-- Result object of a session call_tool invocation, restricted to the fields
`_normalize_result` accesses. -/
structure CallToolResult where
  isError : Bool
  content : List ContentBlock
  structuredContent : Option PyVal

/-- Shallow embedding of `_normalize_result`; a raised exception is the error
branch of the returned value. -/
def normalize_result (tool_name : String) (result : CallToolResult) :
    Except Exc PyVal :=
  if result.isError then
    let messages := result.content.filterMap (fun b =>
      match b with
      | .textContent t => some t
      | _ => Option.none)
    .error (.runtimeError ("MCP tool " ++ sq ++ tool_name ++ sq ++
      " failed: " ++
      (if messages.isEmpty then "unknown error"
       else String.intercalate "; " messages)))
  else
    match result.structuredContent with
    | some sc => .ok sc
    | Option.none =>
        match result.content.map normalizeBlock with
        | [] => .ok PyVal.none
        | [b] =>
            (match pyValType b with
             | some (PyVal.str "text") =>
                 (match b with
                  | PyVal.dict fs =>
                      (match dictGet fs "text" with
                       | some t => .ok t
                       | Option.none => .error (.keyError "text"))
                  | _ => .error (.keyError "text"))
             | _ => .ok (PyVal.list [b]))
        | bs => .ok (PyVal.list bs)

/-- C8: normalizing a non-error invocation result returns the structured
content unchanged whenever present; otherwise an empty content list yields
None, a content list of exactly one text block yields that block's bare text
string, and any other content list yields the list of per-block
dictionaries. -/
theorem c8_normalize_result :
    (∀ (n : String) (cont : List ContentBlock) (sc : PyVal),
        normalize_result n ⟨false, cont, some sc⟩ = .ok sc) ∧
    (∀ n : String,
        normalize_result n ⟨false, [], Option.none⟩ = .ok PyVal.none) ∧
    (∀ n t : String,
        normalize_result n ⟨false, [.textContent t], Option.none⟩ =
          .ok (.str t)) ∧
    (∀ (n : String) (b : ContentBlock), (∀ t, b ≠ .textContent t) →
        normalize_result n ⟨false, [b], Option.none⟩ =
          .ok (.list [normalizeBlock b])) ∧
    (∀ (n : String) (b₁ b₂ : ContentBlock) (bs : List ContentBlock),
        normalize_result n ⟨false, b₁ :: b₂ :: bs, Option.none⟩ =
          .ok (.list ((b₁ :: b₂ :: bs).map normalizeBlock))) ∧
    (∀ (u t d : String),
        normalizeBlock (.embeddedResource ⟨some u, some t, some d⟩) =
          .dict [("type", .str "embedded_resource"), ("uri", .str u),
                 ("text", .str t), ("data", .str d)]) := by
  refine ⟨?_, ?_, ?_, ?_, ?_, ?_⟩
  · intro n cont sc
    rfl
  · intro n
    rfl
  · intro n t
    rfl
  · intro n b h
    cases b with
    | textContent t => exact absurd rfl (h t)
    | embeddedResource r => rfl
    | imageContent r => rfl
    | audioContent r => rfl
    | resourceLink r => rfl
  · intro n b₁ b₂ bs
    rfl
  · intro u t d
    rfl

theorem c8_normalize_result_witness :
    normalize_result "t" ⟨false, [], Option.none⟩ = .ok PyVal.none ∧
    normalize_result "t" ⟨false, [.textContent "x"], Option.none⟩ =
      .ok (.str "x") ∧
    normalize_result "t" ⟨false, [.imageContent "img"], Option.none⟩ =
      .ok (.list [.dict [("type", .str "ImageContent"),
                         ("repr", .str "img")]]) := by
  refine ⟨?_, ?_, ?_⟩
  · exact c8_normalize_result.2.1 "t"
  · exact c8_normalize_result.2.2.1 "t" "x"
  · rw [c8_normalize_result.2.2.2.1 "t" (ContentBlock.imageContent "img")
      (fun t h => by cases h)]
    rfl

/-- Tool declaration as read off the session list_tools response: the
attributes the runner accesses, with both the camel-case and the snake-case
schema attribute (`none` models a missing attribute for getattr). -/
structure ToolDecl where
  name : String
  description : Option String
  inputSchema : Option PyVal
  inputSchemaSnake : Option PyVal

/-- Conversion of an optional string attribute to the Python value stored in
the tool entry dictionary. -/
def optStr : Option String → PyVal
  | some s => .str s
  | Option.none => PyVal.none

/-- Conversion of an optional schema attribute to the Python value stored in
the tool entry dictionary. -/
def optVal : Option PyVal → PyVal
  | some v => v
  | Option.none => PyVal.none

/-- Embedding of the list_tools entry construction in the runner loop,
including the getattr fallback from inputSchema to input_schema. -/
def toolEntry (t : ToolDecl) : PyVal :=
  .dict [("name", .str t.name), ("description", optStr t.description),
         ("input_schema",
           optVal (match t.inputSchema with
                   | some s => some s
                   | Option.none => t.inputSchemaSnake))]

/-- Session-protocol oracle: the outcomes of the external mcp ClientSession
calls the runner performs on behalf of one request. -/
structure Session where
  callTool : String → PyVal → Except Exc CallToolResult
  listTools : Except Exc (List ToolDecl)

/-- Outcome a caller observes for one call_tool request before the public
wrapper applies: the session outcome normalized, exceptions carried through
the completion handle. -/
def bridgeCallTool (s : Session) (name : String) (args : PyVal) :
    Except Exc PyVal :=
  match s.callTool name args with
  | .error e => .error e
  | .ok res => normalize_result name res

/-- Shallow embedding of `call_mcp_tool`: the public synchronous entry point
and its exception conversion clauses. -/
def call_mcp_tool (s : Session) (name : String) (args : PyVal) :
    Except Exc PyVal :=
  match bridgeCallTool s name args with
  | .ok v => .ok v
  | .error (.fileNotFoundError m) =>
      .error (.runtimeError ("Unable to start MCP server process: " ++ m))
  | .error (.runtimeError m) => .error (.runtimeError m)
  | .error e =>
      .error (.runtimeError ("MCP tool " ++ sq ++ name ++ sq ++
        " invocation failed: " ++ excMsg e))

/-- C6: every failure observed from the public invoke entry point is a
RuntimeError with a human-readable message, never a raw foreign exception: a
server-side error envelope becomes a RuntimeError naming the operation and
concatenating the envelope text messages (or saying unknown error), a failure
to start the server process becomes a RuntimeError naming that cause, and any
other exception is wrapped in a RuntimeError naming the failed operation. -/
theorem c6_public_failures :
    (∀ (s : Session) (n : String) (a : PyVal) (res : CallToolResult),
        s.callTool n a = .ok res → res.isError = true →
        call_mcp_tool s n a = .error (.runtimeError
          ("MCP tool " ++ sq ++ n ++ sq ++ " failed: " ++
            (let messages := res.content.filterMap (fun b =>
              match b with
              | .textContent t => some t
              | _ => Option.none)
             if messages.isEmpty then "unknown error"
             else String.intercalate "; " messages)))) ∧
    (∀ (s : Session) (n : String) (a : PyVal) (m : String),
        s.callTool n a = .error (.fileNotFoundError m) →
        call_mcp_tool s n a = .error (.runtimeError
          ("Unable to start MCP server process: " ++ m))) ∧
    (∀ (s : Session) (n : String) (a : PyVal) (e : Exc),
        (∀ m, e ≠ .runtimeError m) → (∀ m, e ≠ .fileNotFoundError m) →
        s.callTool n a = .error e →
        call_mcp_tool s n a = .error (.runtimeError
          ("MCP tool " ++ sq ++ n ++ sq ++ " invocation failed: " ++
            excMsg e))) ∧
    (∀ (s : Session) (n : String) (a : PyVal),
        (∃ v, call_mcp_tool s n a = .ok v) ∨
        (∃ m, call_mcp_tool s n a = .error (.runtimeError m))) := by
  refine ⟨?_, ?_, ?_, ?_⟩
  · intro s n a res hcall hisErr
    simp [call_mcp_tool, bridgeCallTool, hcall, normalize_result, hisErr]
  · intro s n a m hcall
    simp [call_mcp_tool, bridgeCallTool, hcall]
  · intro s n a e h1 h2 hcall
    cases e with
    | runtimeError m => exact absurd rfl (h1 m)
    | fileNotFoundError m => exact absurd rfl (h2 m)
    | keyError m => simp [call_mcp_tool, bridgeCallTool, hcall, excMsg]
    | otherError c m => simp [call_mcp_tool, bridgeCallTool, hcall, excMsg]
  · intro s n a
    cases hb : bridgeCallTool s n a with
    | ok v => exact Or.inl ⟨v, by simp [call_mcp_tool, hb]⟩
    | error e =>
        cases e with
        | runtimeError m => exact Or.inr ⟨m, by simp [call_mcp_tool, hb]⟩
        | fileNotFoundError m =>
            exact Or.inr ⟨"Unable to start MCP server process: " ++ m,
              by simp [call_mcp_tool, hb]⟩
        | keyError m =>
            exact Or.inr ⟨"MCP tool " ++ sq ++ n ++ sq ++
              " invocation failed: " ++ m, by simp [call_mcp_tool, hb, excMsg]⟩
        | otherError c m =>
            exact Or.inr ⟨"MCP tool " ++ sq ++ n ++ sq ++
              " invocation failed: " ++ m, by simp [call_mcp_tool, hb, excMsg]⟩

/-- Session whose call_tool returns an error envelope with one text block. -/
def sessEnvelope : Session where
  callTool := fun _ _ => .ok ⟨true, [.textContent "boom"], Option.none⟩
  listTools := .ok []

/-- Session whose call_tool raises FileNotFoundError. -/
def sessNoExe : Session where
  callTool := fun _ _ => .error (.fileNotFoundError "no exe")
  listTools := .ok []

/-- Session whose call_tool raises a generic foreign exception. -/
def sessForeign : Session where
  callTool := fun _ _ => .error (.otherError "ValueError" "bad value")
  listTools := .ok []

theorem c6_public_failures_witness :
    call_mcp_tool sessEnvelope "t" PyVal.none =
      .error (.runtimeError ("MCP tool " ++ sq ++ "t" ++ sq ++
        " failed: " ++ "boom")) ∧
    call_mcp_tool sessNoExe "t" PyVal.none =
      .error (.runtimeError ("Unable to start MCP server process: " ++
        "no exe")) ∧
    call_mcp_tool sessForeign "t" PyVal.none =
      .error (.runtimeError ("MCP tool " ++ sq ++ "t" ++ sq ++
        " invocation failed: " ++ "bad value")) := by
  refine ⟨?_, ?_, ?_⟩
  · exact c6_public_failures.1 sessEnvelope "t" PyVal.none
      ⟨true, [.textContent "boom"], Option.none⟩ rfl rfl
  · exact c6_public_failures.2.1 sessNoExe "t" PyVal.none "no exe" rfl
  · exact c6_public_failures.2.2.1 sessForeign "t" PyVal.none
      (.otherError "ValueError" "bad value")
      (fun m h => by cases h) (fun m h => by cases h) rfl

/-- Request kinds carried by the bridge worker queue. -/
inductive ReqKind where
  | callTool (name : String) (args : PyVal)
  | listTools
  | close
  | other (kind : String)

/-- Queued request: its kind plus the identity of the fresh completion handle
`_submit` created for it. -/
structure Request where
  fid : Nat
  kind : ReqKind

/-- Tests for the close request kind. -/
def isClose : ReqKind → Bool
  | .close => true
  | _ => false

/-- Tests for the kinds that perform a session-protocol operation. -/
def isProtocol : ReqKind → Bool
  | .callTool _ _ => true
  | .listTools => true
  | _ => false

/-- Embedding of the try block of the runner loop serving one dequeued
request: the value its future is resolved with, a result or the caught
exception.  The close arm is never consulted, since the loop breaks on close
before entering the try block. -/
def serveRequest (s : Session) : ReqKind → Except Exc PyVal
  | .callTool n a =>
      (match s.callTool n a with
       | .error e => .error e
       | .ok res => normalize_result n res)
  | .listTools =>
      (match s.listTools with
       | .error e => .error e
       | .ok ts => .ok (.list (ts.map toolEntry)))
  | .close => .ok (.bool true)
  | .other k =>
      .error (.runtimeError ("Unknown MCP bridge request: " ++ k))

/-- Resolutions the runner loop performs on the dequeued requests in order: a
close request is resolved with True and ends the loop; every other request is
served and resolved, with a success or with the caught exception, and the
loop then continues with the next request. -/
def runResolutions (s : Session) :
    List Request → List (Nat × Except Exc PyVal)
  | [] => []
  | r :: rs =>
      if isClose r.kind then [(r.fid, .ok (.bool true))]
      else (r.fid, serveRequest s r.kind) :: runResolutions s rs

/-- Requests the loop dequeues before breaking: everything up to and
including the first close request. -/
def served : List Request → List Request
  | [] => []
  | r :: rs => if isClose r.kind then [r] else r :: served rs

/-- Requests dequeued and fully served before the first close request. -/
def preClose (l : List Request) : List Request :=
  l.takeWhile (fun r => !(isClose r.kind))

theorem runResolutions_fids (s : Session) (reqs : List Request) :
    (runResolutions s reqs).map Prod.fst = (served reqs).map Request.fid := by
  induction reqs with
  | nil => rfl
  | cons r rs ih =>
      by_cases h : isClose r.kind = true
      · simp [runResolutions, served, h]
      · simp [runResolutions, served, h, ih]

theorem runResolutions_filter_not_mem (s : Session) (reqs : List Request)
    (f : Nat) (h : f ∉ reqs.map Request.fid) :
    (runResolutions s reqs).filter (fun p => p.1 == f) = [] := by
  induction reqs with
  | nil => rfl
  | cons r rs ih =>
      simp only [List.map_cons, List.mem_cons, not_or] at h
      by_cases hc : isClose r.kind = true
      · simp [runResolutions, hc, List.filter, Ne.symm h.1]
      · simp [runResolutions, hc, List.filter, Ne.symm h.1, ih h.2]

/-- C1: for every Call or ListOperations request dequeued before the first
close request, the runner resolves exactly that request's completion handle,
exactly once, with the served outcome of that same request — the normalized
result on success or the raised exception on failure — and the loop continues
past it regardless, so distinct callers never receive each other's results. -/
theorem c1_resolve_exactly_once :
    ∀ (s : Session) (reqs : List Request),
      (reqs.map Request.fid).Nodup →
      ∀ r ∈ preClose reqs, isProtocol r.kind = true →
      (runResolutions s reqs).filter (fun p => p.1 == r.fid) =
        [(r.fid, serveRequest s r.kind)] := by
  intro s reqs
  induction reqs with
  | nil =>
      intro _ r hr _
      simp [preClose] at hr
  | cons q rs ih =>
      intro hnd r hr hp
      simp only [List.map_cons, List.nodup_cons] at hnd
      by_cases hc : isClose q.kind = true
      · simp [preClose, List.takeWhile_cons, hc] at hr
      · rw [preClose, List.takeWhile_cons] at hr
        simp only [hc, Bool.not_false, if_true, List.mem_cons] at hr
        rcases hr with rfl | hr
        · simp [runResolutions, hc, List.filter,
            runResolutions_filter_not_mem s rs r.fid hnd.1]
        · have hrs : r ∈ rs :=
            (List.takeWhile_sublist _).subset hr
          have hne : q.fid ≠ r.fid := by
            intro hEq
            exact hnd.1 (hEq ▸ List.mem_map_of_mem Request.fid hrs)
          have hbeq : (q.fid == r.fid) = false := by simp [hne]
          simp [runResolutions, hc, List.filter, hbeq, ih hnd.2 r hr hp]

/-- Session used by concrete witnesses of the loop theorems. -/
def sessOk : Session where
  callTool := fun _ _ => .ok ⟨false, [.textContent "out"], Option.none⟩
  listTools := .ok []

theorem c1_resolve_exactly_once_witness :
    (runResolutions sessOk
        [⟨7, .callTool "a" PyVal.none⟩, ⟨9, .listTools⟩, ⟨3, .close⟩]).filter
        (fun p => p.1 == 9) = [(9, .ok (.list []))] := by
  have hmem : Request.mk 9 ReqKind.listTools ∈ preClose
      [⟨7, .callTool "a" PyVal.none⟩, ⟨9, .listTools⟩, ⟨3, .close⟩] :=
    List.mem_cons_of_mem _ (List.mem_cons_self _ _)
  have h := c1_resolve_exactly_once sessOk
    [⟨7, .callTool "a" PyVal.none⟩, ⟨9, .listTools⟩, ⟨3, .close⟩]
    (by decide) ⟨9, .listTools⟩ hmem rfl
  rw [h]
  rfl

/-- Observable events of the runner loop on its background execution
context. -/
inductive WEvent where
  | dequeue (fid : Nat)
  | dispatch (fid : Nat)
  | resolve (fid : Nat)
deriving DecidableEq, Repr

/-- Event trace of the runner loop: every dequeued request is resolved;
protocol requests additionally dispatch exactly one session operation between
their dequeue and their resolve; the first close request resolves and ends
the loop. -/
def runnerTrace : List Request → List WEvent
  | [] => []
  | r :: rs =>
      if isClose r.kind then [.dequeue r.fid, .resolve r.fid]
      else if isProtocol r.kind then
        .dequeue r.fid :: .dispatch r.fid :: .resolve r.fid :: runnerTrace rs
      else .dequeue r.fid :: .resolve r.fid :: runnerTrace rs

/-- Phases of the serialization checker for the runner trace. -/
inductive LoopPhase where
  | idle
  | serving (fid : Nat) (dispatched : Bool)

/-- Checks that a trace alternates strictly: one dequeue, at most one session
dispatch belonging to that same request, then the resolve of that same
request, before the next dequeue.  A trace passing this check never has a
second session operation begin before the previously dequeued request's
completion handle is resolved. -/
def wellSerialized : LoopPhase → List WEvent → Bool
  | .idle, [] => true
  | .idle, .dequeue f :: es => wellSerialized (.serving f false) es
  | .serving f false, .dispatch g :: es =>
      g == f && wellSerialized (.serving f true) es
  | .serving f _, .resolve g :: es => g == f && wellSerialized .idle es
  | _, _ => false

/-- Selects the session-dispatch events of a trace. -/
def dispatchFid : WEvent → Option Nat
  | .dispatch f => some f
  | _ => Option.none

/-- Actions a calling thread performs inside `_MCPBridge._submit`: it
enqueues the request paired with its fresh future onto the worker queue and
blocks on the future; the session operation itself is never among them. -/
inductive CallerAction where
  | enqueueRequest (fid : Nat)
  | awaitFuture (fid : Nat)
  | sessionOperation (fid : Nat)

/-- Shallow embedding of `_MCPBridge._submit` as the caller-side action
sequence. -/
def submitActions (fid : Nat) : List CallerAction :=
  [.enqueueRequest fid, .awaitFuture fid]

/-- C4: the runner trace is strictly serialized — a second session operation
never begins before the previously dequeued request's handle is resolved —
the dispatched operations appear exactly in dequeue (queue) order, and the
caller-side submit path performs no session operation of its own. -/
theorem c4_fifo_serialization :
    (∀ reqs : List Request,
        wellSerialized .idle (runnerTrace reqs) = true) ∧
    (∀ reqs : List Request,
        (runnerTrace reqs).filterMap dispatchFid =
          ((served reqs).filter (fun r => isProtocol r.kind)).map
            Request.fid) ∧
    (∀ fid : Nat, ∀ a ∈ submitActions fid, ∀ g, a ≠ .sessionOperation g) := by
  refine ⟨?_, ?_, ?_⟩
  · intro reqs
    induction reqs with
    | nil => rfl
    | cons r rs ih =>
        by_cases hc : isClose r.kind = true
        · simp [runnerTrace, hc, wellSerialized]
        · by_cases hp : isProtocol r.kind = true
          · simp [runnerTrace, hc, hp, wellSerialized, ih]
          · simp [runnerTrace, hc, hp, wellSerialized, ih]
  · intro reqs
    induction reqs with
    | nil => rfl
    | cons r rs ih =>
        by_cases hc : isClose r.kind = true
        · have hp : isProtocol r.kind = false := by
            cases h : r.kind <;> simp_all [isClose, isProtocol]
          simp [runnerTrace, hc, hp, served, dispatchFid, List.filterMap]
        · by_cases hp : isProtocol r.kind = true
          · simp [runnerTrace, hc, hp, served, dispatchFid, List.filterMap,
              ih]
          · simp [runnerTrace, hc, hp, served, dispatchFid, List.filterMap,
              ih]
  · intro fid a ha g
    simp only [submitActions, List.mem_cons, List.mem_singleton] at ha
    rcases ha with rfl | rfl | h
    · intro h
      cases h
    · intro h
      cases h
    · cases h

theorem c4_fifo_serialization_witness :
    wellSerialized .idle (runnerTrace
      [⟨7, .callTool "a" PyVal.none⟩, ⟨9, .listTools⟩, ⟨3, .close⟩]) =
        true ∧
    (runnerTrace
      [⟨7, .callTool "a" PyVal.none⟩, ⟨9, .listTools⟩,
        ⟨3, .close⟩]).filterMap dispatchFid = [7, 9] ∧
    CallerAction.enqueueRequest 5 ≠ CallerAction.sessionOperation 5 := by
  refine ⟨?_, ?_, ?_⟩
  · exact c4_fifo_serialization.1
      [⟨7, .callTool "a" PyVal.none⟩, ⟨9, .listTools⟩, ⟨3, .close⟩]
  · rw [c4_fifo_serialization.2.1
      [⟨7, .callTool "a" PyVal.none⟩, ⟨9, .listTools⟩, ⟨3, .close⟩]]
    rfl
  · exact c4_fifo_serialization.2.2 5 (CallerAction.enqueueRequest 5)
      (List.mem_cons_self _ _) 5

/-- Actions the close method performs on the calling thread, in order. -/
inductive CloseAction where
  | enqueueCloseRequest
  | awaitCloseFuture (timeoutSeconds : Nat)
  | stopLoop
  | joinThread (timeoutSeconds : Nat)
deriving DecidableEq, Repr

/-- Bounded wait of the close path, used both for `future.result(timeout=5)`
and for `thread.join(timeout=5)`. -/
def closeTimeoutSeconds : Nat := 5

/-- Shallow embedding of `_MCPBridge.close`: a no-op when the background loop
is not running; otherwise it enqueues a close request and awaits its future
with a bounded timeout (a timeout is swallowed), then stops the loop and
joins the worker thread with a bounded timeout. -/
def closeActions (loopRunning : Bool) (queueInitialized : Bool) :
    List CloseAction :=
  if !loopRunning then []
  else
    (if queueInitialized then
        [.enqueueCloseRequest, .awaitCloseFuture closeTimeoutSeconds]
      else [])
      ++ [.stopLoop, .joinThread closeTimeoutSeconds]

/-- C5: when the runner dequeues a close request it resolves that request's
handle with success and exits the loop, serving nothing that was queued after
it; the client-side close enqueues such a request, awaits it for a bounded 5
seconds, then stops the loop and joins the thread with a bounded wait; and
close on a stopped loop is an immediate no-op. -/
theorem c5_close_semantics :
    (∀ (s : Session) (pre : List Request) (c : Request)
        (post : List Request),
        (∀ r ∈ pre, isClose r.kind = false) → isClose c.kind = true →
        runResolutions s (pre ++ c :: post) =
          (pre.map (fun r => (r.fid, serveRequest s r.kind))) ++
            [(c.fid, .ok (.bool true))]) ∧
    closeActions true true =
      [.enqueueCloseRequest, .awaitCloseFuture 5, .stopLoop,
       .joinThread 5] ∧
    (∀ q : Bool, closeActions false q = []) ∧
    closeTimeoutSeconds = 5 := by
  refine ⟨?_, rfl, ?_, rfl⟩
  · intro s pre c post hpre hc
    induction pre with
    | nil => simp [runResolutions, hc]
    | cons p pre ih =>
        have hp : isClose p.kind = false := hpre p (List.mem_cons_self _ _)
        simp only [List.cons_append, runResolutions, hp, Bool.false_eq_true,
          if_false, List.map_cons, List.append_eq]
        rw [ih (fun r hr => hpre r (List.mem_cons_of_mem _ hr))]
  · intro q
    rfl

theorem c5_close_semantics_witness :
    runResolutions sessOk
        [⟨7, .listTools⟩, ⟨3, .close⟩, ⟨8, .listTools⟩] =
      [(7, .ok (.list [])), (3, .ok (.bool true))] := by
  have h := c5_close_semantics.1 sessOk [⟨7, .listTools⟩] ⟨3, .close⟩
    [⟨8, .listTools⟩]
    (fun r hr => by
      rw [List.mem_singleton] at hr
      subst hr
      rfl)
    rfl
  rw [show ([⟨7, .listTools⟩] ++ ⟨3, .close⟩ :: [⟨8, .listTools⟩] :
      List Request) =
    [⟨7, .listTools⟩, ⟨3, .close⟩, ⟨8, .listTools⟩] from rfl] at h
  rw [h]
  rfl

/-- Bounded wait of the constructor for session readiness, the timeout passed
to the session-ready wait call. -/
def startupTimeoutSeconds : Nat := 30

/-- What the background thread signalled by the time the constructor waits:
the time at which the session-ready event was set (`none` when never), and
the startup error recorded before setting it (`none` on a clean startup). -/
structure StartupSignal where
  readyAt : Option Nat
  startupError : Option String

/-- Outcome of the bounded session-ready wait in the constructor. -/
def signaledWithinTimeout (st : StartupSignal) : Bool :=
  match st.readyAt with
  | some t => decide (t ≤ startupTimeoutSeconds)
  | none => false

/-- Shallow embedding of the blocking tail of the `_MCPBridge` constructor
after the worker thread starts: wait for the session-ready signal with a
bounded timeout, then re-raise any recorded startup error; on success the
worker is live, carrying its signature. -/
def bridgeInit (sig : Sig) (st : StartupSignal) : Except String Sig :=
  if signaledWithinTimeout st then
    match st.startupError with
    | some e => .error ("MCP bridge startup failed: " ++ e)
    | none => .ok sig
  else .error "MCP bridge startup timed out."

/-- Python truthiness test `not server_url` on the optional URL. -/
def urlFalsy : Option String → Bool
  | some s => s == ""
  | none => true

/-- Startup phase of `_MCPBridge._runner`: transport selection and session
construction, recording any startup error and signalling readiness.  The
`connectError` oracle is the outcome of the external transport and session
construction plus initialize (`none` on success); `t` is the time at which
the background thread reaches its signalling point. -/
def runnerStartup (cfg : BridgeConfig) (httpClientAvailable : Bool)
    (connectError : Option String) (t : Nat) : StartupSignal :=
  if isHttpTransport (bridge_transport cfg) then
    if urlFalsy cfg.url then
      ⟨some t,
       some "MCP_BRIDGE_URL is required for streamable-http transport."⟩
    else if !httpClientAvailable then
      ⟨some t, some "streamable-http client unavailable; install mcp[cli]."⟩
    else
      match connectError with
      | some e => ⟨some t, some e⟩
      | none => ⟨some t, none⟩
  else
    match connectError with
    | some e => ⟨some t, some e⟩
    | none => ⟨some t, none⟩

/-- State step of `_get_bridge` at the cache level: the cached live worker is
reused only on signature equality; otherwise the old worker is closed and a
fresh construction is attempted, whose failure propagates to the caller and
leaves the cache unchanged, because the cache assignment never executes when
the constructor raises. -/
def getBridgeStep (cached : Option Sig) (sigNow : Sig) (st : StartupSignal) :
    Except String Sig × Option Sig :=
  match cached with
  | some old =>
      if old = sigNow then (.ok old, some old)
      else
        (match bridgeInit sigNow st with
         | .ok w => (.ok w, some w)
         | .error e => (.error e, some old))
  | none =>
      (match bridgeInit sigNow st with
       | .ok w => (.ok w, some w)
       | .error e => (.error e, Option.none))

/-- C3: worker construction bounds the wait for session readiness by 30
seconds and raises a startup timed out error when no signal arrives within
the bound; when the background side recorded a startup error — as it does
for streamable-http transport with no URL configured — the constructor
raises an error carrying that recorded cause instead of returning a live
worker; and a failed first construction leaves no cached worker, so the next
access retries construction afresh. -/
theorem c3_startup_bounded :
    startupTimeoutSeconds = 30 ∧
    (∀ (sig : Sig) (st : StartupSignal), signaledWithinTimeout st = false →
        bridgeInit sig st = .error "MCP bridge startup timed out.") ∧
    (∀ (sig : Sig) (st : StartupSignal) (e : String),
        signaledWithinTimeout st = true → st.startupError = some e →
        bridgeInit sig st = .error ("MCP bridge startup failed: " ++ e)) ∧
    (∀ (cfg : BridgeConfig) (avail : Bool) (connectError : Option String)
        (t : Nat) (sig : Sig),
        isHttpTransport (bridge_transport cfg) = true →
        urlFalsy cfg.url = true → t ≤ 30 →
        bridgeInit sig (runnerStartup cfg avail connectError t) =
          .error ("MCP bridge startup failed: " ++
            "MCP_BRIDGE_URL is required for streamable-http transport.")) ∧
    (∀ (sig : Sig) (st : StartupSignal) (e : String),
        bridgeInit sig st = .error e →
        (getBridgeStep Option.none sig st).1 = .error e ∧
        (getBridgeStep Option.none sig st).2 = Option.none) := by
  refine ⟨rfl, ?_, ?_, ?_, ?_⟩
  · intro sig st h
    simp [bridgeInit, h]
  · intro sig st e h he
    simp [bridgeInit, h, he]
  · intro cfg avail connectError t sig htr hurl ht
    have hsig : signaledWithinTimeout
        (runnerStartup cfg avail connectError t) = true := by
      simp [runnerStartup, htr, hurl, signaledWithinTimeout,
        startupTimeoutSeconds, ht]
    have herr : (runnerStartup cfg avail connectError t).startupError =
        some "MCP_BRIDGE_URL is required for streamable-http transport." := by
      simp [runnerStartup, htr, hurl]
    simp [bridgeInit, hsig, herr]
  · intro sig st e h
    constructor
    · simp [getBridgeStep, h]
    · simp [getBridgeStep, h]

/-- Configuration selecting streamable-http transport with no URL. -/
def httpNoUrlCfg : BridgeConfig where
  transportRaw := some "streamable-http"
  url := none
  command := "python"
  argsRaw := ""
  argsLoads := none
  envRaw := none
  envLoads := none

theorem c3_startup_bounded_witness :
    bridgeInit (Sig.streamableHttp Option.none) ⟨Option.none, Option.none⟩ =
      .error "MCP bridge startup timed out." ∧
    bridgeInit (Sig.streamableHttp Option.none)
        (runnerStartup httpNoUrlCfg true Option.none 0) =
      .error ("MCP bridge startup failed: " ++
        "MCP_BRIDGE_URL is required for streamable-http transport.") ∧
    (getBridgeStep Option.none (Sig.streamableHttp Option.none)
        ⟨Option.none, Option.none⟩).2 = Option.none := by
  refine ⟨?_, ?_, ?_⟩
  · exact c3_startup_bounded.2.1 (Sig.streamableHttp Option.none)
      ⟨Option.none, Option.none⟩ rfl
  · exact c3_startup_bounded.2.2.2.1 httpNoUrlCfg true Option.none 0
      (Sig.streamableHttp Option.none) (by decide) rfl (by decide)
  · exact (c3_startup_bounded.2.2.2.2 (Sig.streamableHttp Option.none)
      ⟨Option.none, Option.none⟩ "MCP bridge startup timed out." rfl).2

/-- Events of one `_get_bridge` access, in program order. -/
inductive AccessEvent where
  | computeSignature
  | acquireLock
  | closeWorker (sig : Sig)
  | createWorker (sig : Sig)
  | releaseLock
deriving DecidableEq, Repr

/-- Shallow embedding of `_get_bridge` as its event trace: the signature is
computed from live configuration first, then the lock is acquired, the cache
is inspected and updated, and the lock is released. -/
def getBridgeTrace (cached : Option Sig) (sigNow : Sig) : List AccessEvent :=
  [.computeSignature, .acquireLock]
    ++ (match cached with
        | Option.none => [.createWorker sigNow]
        | some old =>
            if old = sigNow then []
            else [.closeWorker old, .createWorker sigNow])
    ++ [.releaseLock]

/-- Events strictly between acquiring and releasing the lock. -/
def lockSection (es : List AccessEvent) : List AccessEvent :=
  ((es.dropWhile (fun e => e != .acquireLock)).drop 1).takeWhile
    (fun e => e != .releaseLock)

/-- C2 counterexample: in `_get_bridge` the signature is computed before the
lock is acquired, not under the lock — the compute event precedes the acquire
event and does not lie in the lock section of the trace. -/
theorem c2_counterexample :
    (getBridgeTrace Option.none (Sig.streamableHttp Option.none)).take 2 =
      [AccessEvent.computeSignature, AccessEvent.acquireLock] ∧
    AccessEvent.computeSignature ∉
      lockSection
        (getBridgeTrace Option.none (Sig.streamableHttp Option.none)) := by
  decide

/-- C2 (amended): the accessor computes the current signature from live
configuration before acquiring the process-wide lock; under the lock it
reuses the cached worker when signatures are equal, and on a mismatch or an
empty cache it closes any existing worker completely before constructing the
new worker with the new signature; the cache holds at most one worker, and a
successful access leaves exactly the returned worker cached. -/
theorem c2_singleton_accessor :
    (∀ (cached : Option Sig) (sigNow : Sig),
        (getBridgeTrace cached sigNow).take 2 =
          [AccessEvent.computeSignature, AccessEvent.acquireLock]) ∧
    (∀ old : Sig, getBridgeTrace (some old) old =
        [.computeSignature, .acquireLock, .releaseLock]) ∧
    (∀ old sigNow : Sig, old ≠ sigNow →
        getBridgeTrace (some old) sigNow =
          [.computeSignature, .acquireLock, .closeWorker old,
           .createWorker sigNow, .releaseLock]) ∧
    (∀ sigNow : Sig, getBridgeTrace Option.none sigNow =
        [.computeSignature, .acquireLock, .createWorker sigNow,
         .releaseLock]) ∧
    (∀ (old : Sig) (st : StartupSignal),
        getBridgeStep (some old) old st = (.ok old, some old)) ∧
    (∀ (cached : Option Sig) (sigNow w : Sig) (st : StartupSignal),
        (getBridgeStep cached sigNow st).1 = .ok w →
        (getBridgeStep cached sigNow st).2 = some w) := by
  refine ⟨?_, ?_, ?_, ?_, ?_, ?_⟩
  · intro cached sigNow
    cases cached with
    | none => rfl
    | some old =>
        by_cases h : old = sigNow <;> simp [getBridgeTrace, h]
  · intro old
    simp [getBridgeTrace]
  · intro old sigNow h
    simp [getBridgeTrace, h]
  · intro sigNow
    rfl
  · intro old st
    simp [getBridgeStep]
  · intro cached sigNow w st h
    cases cached with
    | none =>
        cases hb : bridgeInit sigNow st with
        | ok v =>
            simp [getBridgeStep, hb] at h ⊢
            exact h
        | error e => simp [getBridgeStep, hb] at h
    | some old =>
        by_cases heq : old = sigNow
        · simp [getBridgeStep, heq] at h ⊢
          exact h
        · cases hb : bridgeInit sigNow st with
          | ok v =>
              simp [getBridgeStep, heq, hb] at h ⊢
              exact h
          | error e => simp [getBridgeStep, heq, hb] at h

theorem c2_singleton_accessor_witness :
    getBridgeTrace (some (Sig.streamableHttp (some "u")))
        (Sig.streamableHttp (some "v")) =
      [.computeSignature, .acquireLock,
       .closeWorker (Sig.streamableHttp (some "u")),
       .createWorker (Sig.streamableHttp (some "v")), .releaseLock] ∧
    getBridgeStep (some (Sig.streamableHttp (some "u")))
        (Sig.streamableHttp (some "u")) ⟨Option.none, Option.none⟩ =
      (.ok (Sig.streamableHttp (some "u")),
       some (Sig.streamableHttp (some "u"))) ∧
    (getBridgeStep Option.none (Sig.streamableHttp (some "u"))
        ⟨some 0, Option.none⟩).2 = some (Sig.streamableHttp (some "u")) := by
  refine ⟨?_, ?_, ?_⟩
  · exact c2_singleton_accessor.2.2.1 (Sig.streamableHttp (some "u"))
      (Sig.streamableHttp (some "v")) (by decide)
  · exact c2_singleton_accessor.2.2.2.2.1 (Sig.streamableHttp (some "u"))
      ⟨Option.none, Option.none⟩
  · exact c2_singleton_accessor.2.2.2.2.2 Option.none
      (Sig.streamableHttp (some "u")) (Sig.streamableHttp (some "u"))
      ⟨some 0, Option.none⟩ rfl

/-- Operation descriptor of the discovered catalog: name, description, and
input schema, as the catalog entries advertise them. -/
structure OperationDescriptor where
  name : String
  description : Option String
  inputSchema : Option PyVal

/-- Modelled from the spec: the Schema-Driven Proxy Builder (`buildProxies`,
spec section 4.4) has no implementation under src.  Per the spec it calls
listOperations once, fails fast with a no-operations-discovered error when
the catalog is empty, and otherwise synthesizes one callable proxy per
discovered operation, forwarding arguments verbatim to invoke by operation
name; proxies are represented here by the operation names they forward to. -/
def buildProxies (catalog : List OperationDescriptor) :
    Except String (List String) :=
  if catalog.isEmpty then .error "no operations discovered"
  else .ok (catalog.map (fun d => d.name))

/-- C7: after discovery, the proxy builder fails fast with a
no-operations-discovered error whenever the catalog is empty, and never
returns an empty proxy set: on a non-empty catalog it returns exactly one
proxy per discovered operation. -/
theorem c7_fail_fast_empty_catalog :
    buildProxies [] = .error "no operations discovered" ∧
    (∀ catalog : List OperationDescriptor, catalog ≠ [] →
        buildProxies catalog = .ok (catalog.map (fun d => d.name)) ∧
        (catalog.map (fun d => d.name)).length = catalog.length) := by
  constructor
  · rfl
  · intro catalog h
    constructor
    · cases catalog with
      | nil => exact absurd rfl h
      | cons d ds => rfl
    · simp

theorem c7_fail_fast_empty_catalog_witness :
    buildProxies [⟨"fetch_dashboard_data", Option.none, Option.none⟩] =
      .ok ["fetch_dashboard_data"] := by
  exact (c7_fail_fast_empty_catalog.2
    [⟨"fetch_dashboard_data", Option.none, Option.none⟩]
    (fun h => by cases h)).1

end MCPBridge
